import Mathlib

/-!
Shallow embedding of the defect tracking and triage engine of
`web_tracker.py`: the `Defect` entity with its two severity variants, the
triage comparator `__lt__`, the `DefectFactory`, the `ResolutionEngine`
keyword classifier, the `DefectLog` collection and the `TrackerController`
commands.  Wall-clock time (`datetime.now()`) is passed explicitly as a
`Nat` timestamp counted in seconds; durations are computed in `Int`, as
Python timedeltas can be negative.  Exceptions become `Except` values and
the `CriticalHaltException` control-flow signal becomes a dedicated result
variant.  Persistence (`force_save_data`) is modelled as copying the
in-memory log into a `saved` component of the controller state.
-/

/-- Severity of a defect: the two concrete subclasses of `Defect`
(`MinorDefect` and `CriticalDefect`). -/
inductive Severity where
  | minor
  | critical
deriving DecidableEq

/-- Recoverable failure conditions raised by the engine:
`DefectAlreadyResolvedException`, the `ValueError` of a failed lookup, and
the `RuntimeError` of clearing with nothing to clear. -/
inductive TrackerError where
  | alreadyResolved
  | notFound
  | nothingToClear
deriving DecidableEq

/-- Outcome of the report command: normal return, or the
`CriticalHaltException` signal carrying its message. -/
inductive ReportResult where
  | ok
  | halt (msg : String)
deriving DecidableEq

/-- The `Defect` entity (fields of `Defect.__init__` plus the
variant-specific attribute of the subclass: `cosmetic_area` for Minor,
`safety_risk` for Critical, stored here as `detail`). -/
structure Defect where
  id : String
  task_name : String
  description : String
  logged_by : String
  severity : Severity
  detail : String
  is_resolved : Bool
  resolved_by : String
  resolution_details : String
  logged_at : Nat
  resolved_at : Option Nat
deriving DecidableEq

/-- Constructor `MinorDefect(defect_id, task_name, desc, user, cosmetic_area)`
at time `now`: the base `Defect.__init__` fields plus the cosmetic area. -/
def mkMinorDefect (defect_id task_name desc user cosmetic_area : String)
    (now : Nat) : Defect :=
  { id := defect_id, task_name := task_name, description := desc,
    logged_by := user, severity := .minor, detail := cosmetic_area,
    is_resolved := false, resolved_by := "None",
    resolution_details := "Pending", logged_at := now, resolved_at := none }

/-- Constructor `CriticalDefect(defect_id, task_name, desc, user, safety_risk)`
at time `now`. -/
def mkCriticalDefect (defect_id task_name desc user safety_risk : String)
    (now : Nat) : Defect :=
  { id := defect_id, task_name := task_name, description := desc,
    logged_by := user, severity := .critical, detail := safety_risk,
    is_resolved := false, resolved_by := "None",
    resolution_details := "Pending", logged_at := now, resolved_at := none }

/-- Polymorphic `get_impact_level`: `"Minor"` for `MinorDefect`,
`"CRITICAL"` for `CriticalDefect`. -/
def Defect.get_impact_level (d : Defect) : String :=
  match d.severity with
  | .minor => "Minor"
  | .critical => "CRITICAL"

/-- Polymorphic `get_priority_weight`: 1 for `MinorDefect`, 10 for
`CriticalDefect`. -/
def Defect.get_priority_weight (d : Defect) : Nat :=
  match d.severity with
  | .minor => 1
  | .critical => 10

/-- Method `Defect.resolve(resolver_name, details)` at time `now`: raises
`DefectAlreadyResolvedException` when `is_resolved` already holds, otherwise
mutates the resolution fields. -/
def Defect.resolve (d : Defect) (resolver_name details : String) (now : Nat) :
    Except TrackerError Defect :=
  if d.is_resolved then
    .error .alreadyResolved
  else
    .ok { d with is_resolved := true, resolved_by := resolver_name,
                 resolution_details := details, resolved_at := some now }

/-- Duration computed inside `get_aging`: `end_time - self.logged_at` in
seconds, where `end_time` is `resolved_at` for a resolved defect and the
current time otherwise.  `none` models the `TypeError` Python would raise
when a resolved defect has no `resolved_at`. -/
def agingSeconds (d : Defect) (now : Nat) : Option Int :=
  (if d.is_resolved then d.resolved_at else some now).map
    (fun end_time => (end_time : Int) - (d.logged_at : Int))

/-- Formatting step of `get_aging`: `divmod` of the total seconds into
hours and minutes, floor division as in Python. -/
def formatAging (totalSeconds : Int) : String :=
  toString (totalSeconds.fdiv 3600) ++ "h " ++
    toString ((totalSeconds.fmod 3600).fdiv 60) ++ "m"

/-- Method `Defect.get_aging()` at current time `now`. -/
def Defect.get_aging (d : Defect) (now : Nat) : Option String :=
  (agingSeconds d now).map formatAging

/-- Comparator `Defect.__lt__(self, other)`: resolved defects never sort
before unresolved ones, then higher priority weight first (via the sign of
`priority_diff`), then later `logged_at` first. -/
def defectLT (self other : Defect) : Bool :=
  if self.is_resolved && !other.is_resolved then false
  else if !self.is_resolved && other.is_resolved then true
  else
    let priority_diff : Int :=
      (other.get_priority_weight : Int) - (self.get_priority_weight : Int)
    if priority_diff != 0 then decide (priority_diff < 0)
    else decide (self.logged_at > other.logged_at)

/-- Non-strict companion of `defectLT`, as used by Python `list.sort()`
(which orders `a` before `b` whenever `not (b < a)`). -/
def defectLE (a b : Defect) : Bool := !(defectLT b a)

/-- Python `str.lower()`.  The library `String.toLower` is extensionally
the same map over the characters but is defined by well-founded recursion
over byte positions; this structural form is used so that concrete states
evaluate inside the kernel. -/
def strToLower (s : String) : String := ⟨s.data.map Char.toLower⟩

/-- Test whether the character list starts with the pattern (helper for
Python substring containment `word in desc`). -/
def charsStartWith : List Char → List Char → Bool
  | [], _ => true
  | _ :: _, [] => false
  | p :: ps, c :: cs => p == c && charsStartWith ps cs

/-- Test whether the pattern occurs anywhere in the character list. -/
def charsContain (pat : List Char) : List Char → Bool
  | [] => charsStartWith pat []
  | c :: cs => charsStartWith pat (c :: cs) || charsContain pat cs

/-- Python substring containment `pat in s`. -/
def strContains (s pat : String) : Bool := charsContain pat.toList s.toList

/-- Electrical-risk keyword set of `ResolutionEngine.suggest_fix`. -/
def electricalWords : List String := ["wire", "voltage", "shock", "electric"]

/-- Cosmetic keyword set. -/
def cosmeticWords : List String := ["scratch", "paint", "dent", "cosmetic"]

/-- Missing-hardware keyword set. -/
def hardwareWords : List String := ["missing", "screw", "bolt", "part"]

/-- Software keyword set. -/
def softwareWords : List String := ["software", "crash", "bug", "boot"]

/-- Python `any(word in desc for word in words)`. -/
def matchesKeywords (desc : String) (words : List String) : Bool :=
  words.any (fun word => strContains desc word)

/-- Canned electrical remediation text. -/
def electricalFix : String :=
  "Isolate power supply immediately. Replace damaged wiring, perform continuity testing, and verify against safety protocol IEEE-1584."

/-- Canned cosmetic remediation text. -/
def cosmeticFix : String :=
  "Route to touch-up station. Buff affected area, reapply surface coating, and verify thickness under QA lighting."

/-- Canned missing-hardware remediation text. -/
def hardwareFix : String :=
  "Perform line-stop. Replenish hardware bins, install missing components, and recalibrate automated dispensers."

/-- Canned software remediation text. -/
def softwareFix : String :=
  "Extract error logs, flash firmware to the last known stable version, and reboot system in diagnostic mode."

/-- Escalation/RCA text for critical defects with no keyword match. -/
def escalationFix : String :=
  "Halt operation immediately. Escalate to Senior Engineering for a 5-Whys Root Cause Analysis (RCA) before resuming."

/-- Generic Tier-1 rework text. -/
def tier1Fix : String :=
  "Apply standard Tier-1 rework procedure and flag unit for secondary QA inspection."

/-- Static method `ResolutionEngine.suggest_fix(defect)`. -/
def suggest_fix (defect : Defect) : String :=
  let desc := strToLower defect.description
  if matchesKeywords desc electricalWords then electricalFix
  else if matchesKeywords desc cosmeticWords then cosmeticFix
  else if matchesKeywords desc hardwareWords then hardwareFix
  else if matchesKeywords desc softwareWords then softwareFix
  else if defect.get_impact_level == "CRITICAL" then escalationFix
  else tier1Fix

/-- Static method `DefectFactory.create_defect(defect_type, defect_id, task,
desc, user, detail)` at time `now`. -/
def create_defect (defect_type defect_id task desc user detail : String)
    (now : Nat) : Defect :=
  if strToLower defect_type == "critical" then
    mkCriticalDefect defect_id task desc user detail now
  else
    mkMinorDefect defect_id task desc user detail now

/-- The `DefectLog` collection. -/
structure DefectLog where
  defects : List Defect
deriving DecidableEq

/-- Method `DefectLog.add_defect`: append at the end. -/
def DefectLog.add_defect (log : DefectLog) (defect : Defect) : DefectLog :=
  ⟨log.defects ++ [defect]⟩

/-- Method `DefectLog.find_defect`: first defect (in insertion order) whose
id matches case-insensitively. -/
def DefectLog.find_defect (log : DefectLog) (defect_id : String) :
    Option Defect :=
  log.defects.find? (fun d => strToLower d.id == strToLower defect_id)

/-- Method `DefectLog.remove_resolved_defects`: keep only unresolved. -/
def DefectLog.remove_resolved_defects (log : DefectLog) : DefectLog :=
  ⟨log.defects.filter (fun d => !d.is_resolved)⟩

/-- Controller state: the in-memory `log_database` plus the durable copy
written by `force_save_data` into `database.pkl`. -/
structure TrackerState where
  log_database : DefectLog
  saved : DefectLog
deriving DecidableEq

/-- Method `TrackerController.report_defect(defect)`: add to the log,
persist, then raise `CriticalHaltException` when the defect is critical. -/
def report_defect (s : TrackerState) (defect : Defect) :
    TrackerState × ReportResult :=
  let log2 := s.log_database.add_defect defect
  let s2 : TrackerState := { log_database := log2, saved := log2 }
  match defect.severity with
  | .critical =>
      (s2, .halt ("!!! SYSTEM HALT !!!\nCRITICAL DEFECT LOGGED: "
        ++ defect.description))
  | .minor => (s2, .ok)

/-- Replace the first defect whose id matches `defect_id`
case-insensitively (the object `find_defect` would have returned, mutated
in place by Python). -/
def replaceFirstById : List Defect → String → Defect → List Defect
  | [], _, _ => []
  | d :: rest, defect_id, repl =>
      if strToLower d.id == strToLower defect_id then repl :: rest
      else d :: replaceFirstById rest defect_id repl

/-- Method `TrackerController.process_resolution(defect_id, manager_name,
details)` at time `now`: lookup, resolve the found defect in place,
persist on success; `ValueError` when absent. -/
def process_resolution (s : TrackerState)
    (defect_id manager_name details : String) (now : Nat) :
    Except TrackerError TrackerState :=
  match s.log_database.find_defect defect_id with
  | none => .error .notFound
  | some defect =>
    match defect.resolve manager_name details now with
    | .error e => .error e
    | .ok resolved =>
      let log2 : DefectLog :=
        ⟨replaceFirstById s.log_database.defects defect_id resolved⟩
      .ok { log_database := log2, saved := log2 }

/-- Method `TrackerController.clear_resolved_defects()`: remove resolved
defects; persist when the count changed, `RuntimeError` otherwise. -/
def clear_resolved_defects (s : TrackerState) :
    Except TrackerError TrackerState :=
  let initial_count := s.log_database.defects.length
  let log2 := s.log_database.remove_resolved_defects
  if initial_count ≠ log2.defects.length then
    .ok { log_database := log2, saved := log2 }
  else
    .error .nothingToClear

/-- Method `TrackerController.get_all_defects_sorted()`: Python
`list.sort()` is a stable ascending sort driven by `__lt__`, modelled by a
stable merge sort with `defectLE`. -/
def get_all_defects_sorted (s : TrackerState) : List Defect :=
  s.log_database.defects.mergeSort defectLE

/-- States of the controller reachable from an empty log (the startup
fallback of `load_data`) through the report, resolve and clear commands,
reporting only factory-constructed defects. -/
inductive Reachable : TrackerState → Prop where
  | init : Reachable { log_database := ⟨[]⟩, saved := ⟨[]⟩ }
  | report (s : TrackerState)
      (defect_type defect_id task desc user detail : String) (now : Nat) :
      Reachable s →
      Reachable (report_defect s
        (create_defect defect_type defect_id task desc user detail now)).1
  | resolve (s s2 : TrackerState) (defect_id m det : String) (now : Nat) :
      Reachable s → process_resolution s defect_id m det now = .ok s2 →
      Reachable s2
  | clear (s s2 : TrackerState) :
      Reachable s → clear_resolved_defects s = .ok s2 → Reachable s2

/-! Concrete sample defects and states used by the witnesses. -/

/-- Empty controller state (the startup fallback of `load_data`). -/
def initialState : TrackerState := { log_database := ⟨[]⟩, saved := ⟨[]⟩ }

/-- Concrete unresolved minor defect. -/
def minorSample : Defect :=
  mkMinorDefect "D-001" "assembly" "loose fitting" "amy" "left panel" 10

/-- Concrete unresolved critical defect. -/
def critSample : Defect :=
  mkCriticalDefect "D-002" "welding" "exposed wire near coolant" "bob"
    "electrocution" 12

/-- Concrete resolved defect. -/
def resolvedSample : Defect :=
  { minorSample with is_resolved := true, resolved_by := "mgr",
                     resolution_details := "fixed", resolved_at := some 50 }

/-- Concrete state holding one resolved defect. -/
def resolvedLogState : TrackerState :=
  { log_database := ⟨[resolvedSample]⟩, saved := ⟨[resolvedSample]⟩ }

/-- Concrete state holding one unresolved minor defect. -/
def minorLogState : TrackerState :=
  { log_database := ⟨[minorSample]⟩, saved := ⟨[minorSample]⟩ }

/-- State reached by reporting one freshly created minor defect. -/
def reportedState : TrackerState :=
  (report_defect initialState
    (create_defect "Minor" "D-010" "task" "desc" "u" "area" 3)).1

/-! Helper lemmas about the comparator and the operations. -/

lemma defectLT_iff (a b : Defect) :
    defectLT a b = true ↔
      ((a.is_resolved = false ∧ b.is_resolved = true) ∨
       (a.is_resolved = b.is_resolved ∧
         (b.get_priority_weight < a.get_priority_weight ∨
          (a.get_priority_weight = b.get_priority_weight ∧
            b.logged_at < a.logged_at)))) := by
  unfold defectLT
  cases ha : a.is_resolved <;> cases hb : b.is_resolved <;>
    by_cases hw : a.get_priority_weight = b.get_priority_weight <;>
      simp [ha, hb, hw, bne_iff_ne, sub_ne_zero, Nat.cast_inj] <;> omega

lemma defectLE_trans (a b c : Defect) (hab : defectLE a b = true)
    (hbc : defectLE b c = true) : defectLE a c = true := by
  simp only [defectLE, Bool.not_eq_true'] at hab hbc ⊢
  rw [Bool.eq_false_iff, Ne, defectLT_iff] at hab hbc ⊢
  cases hA : a.is_resolved <;> cases hB : b.is_resolved <;>
    cases hC : c.is_resolved <;> simp [hA, hB, hC] at hab hbc ⊢ <;> omega

lemma defectLE_total (a b : Defect) : (defectLE a b || defectLE b a) = true := by
  by_contra h
  simp only [defectLE, Bool.or_eq_true, Bool.not_eq_true', not_or,
    Bool.not_eq_false] at h
  obtain ⟨h1, h2⟩ := h
  rw [defectLT_iff] at h1 h2
  cases hA : a.is_resolved <;> cases hB : b.is_resolved <;>
    simp [hA, hB] at h1 h2 <;> omega

lemma sorted_view_perm (s : TrackerState) :
    (get_all_defects_sorted s).Perm s.log_database.defects :=
  List.mergeSort_perm _ _

lemma sorted_view_pairwise (s : TrackerState) :
    List.Pairwise (fun x y => defectLT y x = false)
      (get_all_defects_sorted s) := by
  have h := @List.sorted_mergeSort Defect defectLE defectLE_trans
    defectLE_total s.log_database.defects
  exact h.imp (fun hxy => by simpa [defectLE, Bool.not_eq_true'] using hxy)

/-- C1: the triage comparator is a three-tier rule: any unresolved defect
sorts strictly before any resolved one; among defects with equal
resolved-status the higher `priorityWeight()` sorts first; among defects
with equal resolved-status and equal weight the later `loggedAt` sorts
first; and `sortedView` returns the defects of the log ordered by this
rule (a permutation that is pairwise non-inverted under the comparator). -/
theorem triage_comparator_and_sorted_view :
    (∀ A B : Defect, A.is_resolved = false → B.is_resolved = true →
       defectLT A B = true) ∧
    (∀ A B : Defect, A.is_resolved = B.is_resolved →
       B.get_priority_weight < A.get_priority_weight → defectLT A B = true) ∧
    (∀ A B : Defect, A.is_resolved = B.is_resolved →
       A.get_priority_weight = B.get_priority_weight →
       B.logged_at < A.logged_at → defectLT A B = true) ∧
    (∀ s : TrackerState,
       (get_all_defects_sorted s).Perm s.log_database.defects ∧
       List.Pairwise (fun x y => defectLT y x = false)
         (get_all_defects_sorted s)) := by
  refine ⟨?_, ?_, ?_, fun s => ⟨sorted_view_perm s, sorted_view_pairwise s⟩⟩
  · intro A B h1 h2
    rw [defectLT_iff]
    exact Or.inl ⟨h1, h2⟩
  · intro A B h hw
    rw [defectLT_iff]
    exact Or.inr ⟨h, Or.inl hw⟩
  · intro A B h hw hl
    rw [defectLT_iff]
    exact Or.inr ⟨h, Or.inr ⟨hw, hl⟩⟩

/-- Witness for C1 at concrete defects: an unresolved defect sorts before a
resolved one, a critical before a minor, and a later-logged minor before an
earlier-logged one. -/
theorem triage_comparator_and_sorted_view_witness :
    defectLT minorSample resolvedSample = true ∧
    defectLT critSample minorSample = true ∧
    defectLT minorSample (mkMinorDefect "D-003" "t" "d" "u" "a" 4) = true :=
  ⟨triage_comparator_and_sorted_view.1 minorSample resolvedSample rfl rfl,
   triage_comparator_and_sorted_view.2.1 critSample minorSample rfl
     (by decide),
   triage_comparator_and_sorted_view.2.2.1 minorSample
     (mkMinorDefect "D-003" "t" "d" "u" "a" 4) rfl rfl (by decide)⟩

lemma report_defect_fst (s : TrackerState) (d : Defect) :
    (report_defect s d).1 =
      { log_database := s.log_database.add_defect d,
        saved := s.log_database.add_defect d } := by
  cases h : d.severity <;> simp [report_defect, h]

/-- C2: the report command adds the defect and persists before signaling:
its post-state appends the defect to the log, persists that log, and a
subsequent lookup of the defect id succeeds; a critical defect yields the
halt signal carrying its description, a minor defect yields none. -/
theorem report_defect_halt_after_add :
    ∀ (s : TrackerState) (d : Defect),
      (report_defect s d).1.log_database.defects =
        s.log_database.defects ++ [d] ∧
      (report_defect s d).1.saved = (report_defect s d).1.log_database ∧
      ((report_defect s d).1.log_database.find_defect d.id).isSome = true ∧
      (d.severity = .critical →
        (report_defect s d).2 =
          .halt ("!!! SYSTEM HALT !!!\nCRITICAL DEFECT LOGGED: "
            ++ d.description)) ∧
      (d.severity = .minor → (report_defect s d).2 = .ok) := by
  intro s d
  refine ⟨?_, ?_, ?_, ?_, ?_⟩
  · simp [report_defect_fst, DefectLog.add_defect]
  · rw [report_defect_fst]
  · rw [report_defect_fst]
    simp only [DefectLog.add_defect, DefectLog.find_defect, List.find?_isSome]
    exact ⟨d, List.mem_append_right _ (by simp), by simp⟩
  · intro h
    simp [report_defect, h]
  · intro h
    simp [report_defect, h]

/-- Witness for C2: reporting the concrete critical defect from the empty
state signals the halt with its description, and reporting the minor one
does not. -/
theorem report_defect_halt_after_add_witness :
    (report_defect initialState critSample).2 =
      .halt ("!!! SYSTEM HALT !!!\nCRITICAL DEFECT LOGGED: "
        ++ critSample.description) ∧
    (report_defect initialState minorSample).2 = .ok :=
  ⟨(report_defect_halt_after_add initialState critSample).2.2.2.1 rfl,
   (report_defect_halt_after_add initialState minorSample).2.2.2.2 rfl⟩

/-- C3: `Defect.resolve` fails with `AlreadyResolved` exactly when the
defect is already resolved (leaving it unchanged, as no new defect value is
produced), and otherwise succeeds setting `is_resolved`, `resolved_by`,
`resolution_details` and `resolved_at` to the current time while keeping
every other field. -/
theorem defect_resolve_spec :
    ∀ (d : Defect) (r det : String) (now : Nat),
      (d.is_resolved = true → d.resolve r det now = .error .alreadyResolved) ∧
      (d.is_resolved = false → d.resolve r det now =
        .ok { d with is_resolved := true, resolved_by := r,
                     resolution_details := det, resolved_at := some now }) ∧
      (∀ e, d.resolve r det now = .error e →
        e = .alreadyResolved ∧ d.is_resolved = true) := by
  intro d r det now
  cases hd : d.is_resolved <;> simp [Defect.resolve, hd]

/-- Witness for C3: resolving the concrete already-resolved defect fails
with `AlreadyResolved`, and resolving the unresolved one succeeds with the
resolution fields set. -/
theorem defect_resolve_spec_witness :
    resolvedSample.resolve "mgr2" "again" 60 = .error .alreadyResolved ∧
    minorSample.resolve "mgr" "done" 60 =
      .ok { minorSample with is_resolved := true, resolved_by := "mgr",
                             resolution_details := "done",
                             resolved_at := some 60 } :=
  ⟨(defect_resolve_spec resolvedSample "mgr2" "again" 60).1 rfl,
   (defect_resolve_spec minorSample "mgr" "done" 60).2.1 rfl⟩

/-- C4: clearing with zero resolved defects fails with `NothingToClear`,
leaving the log unchanged (the rebuilt list equals the original) and
performing no persistence write; with at least one resolved defect it
succeeds, keeping exactly the unresolved defects in their original
relative order and persisting the new state. -/
theorem clear_resolved_spec :
    ∀ s : TrackerState,
      ((∀ d ∈ s.log_database.defects, d.is_resolved = false) →
         clear_resolved_defects s = .error .nothingToClear ∧
         s.log_database.remove_resolved_defects = s.log_database) ∧
      ((∃ d ∈ s.log_database.defects, d.is_resolved = true) →
         ∃ s2, clear_resolved_defects s = .ok s2 ∧
           s2.log_database.defects =
             s.log_database.defects.filter (fun d => !d.is_resolved) ∧
           s2.saved = s2.log_database) := by
  intro s
  constructor
  · intro h
    have hfil : s.log_database.defects.filter (fun d => !d.is_resolved) =
        s.log_database.defects :=
      List.filter_eq_self.mpr (fun a ha => by simp [h a ha])
    have hrm : s.log_database.remove_resolved_defects = s.log_database := by
      simp [DefectLog.remove_resolved_defects, hfil]
    exact ⟨by simp [clear_resolved_defects, hrm], hrm⟩
  · rintro ⟨d, hd, hres⟩
    have hlt : (s.log_database.defects.filter
        (fun d => !d.is_resolved)).length < s.log_database.defects.length :=
      List.length_filter_lt_length_iff_exists.mpr ⟨d, hd, by simp [hres]⟩
    have hne : s.log_database.defects.length ≠
        (s.log_database.remove_resolved_defects).defects.length := by
      simp only [DefectLog.remove_resolved_defects]
      omega
    exact ⟨{ log_database := s.log_database.remove_resolved_defects,
             saved := s.log_database.remove_resolved_defects },
      by simp [clear_resolved_defects, hne], rfl, rfl⟩

/-- Witness for C4: clearing the all-unresolved singleton log fails with
`NothingToClear`, while clearing a log holding one resolved and one
unresolved defect keeps exactly the unresolved one. -/
theorem clear_resolved_spec_witness :
    clear_resolved_defects
        { log_database := ⟨[minorSample]⟩, saved := ⟨[minorSample]⟩ } =
      .error .nothingToClear ∧
    (∃ s2, clear_resolved_defects
        { log_database := ⟨[resolvedSample, minorSample]⟩,
          saved := ⟨[resolvedSample, minorSample]⟩ } = .ok s2 ∧
      s2.log_database.defects =
        [resolvedSample, minorSample].filter (fun d => !d.is_resolved) ∧
      s2.saved = s2.log_database) :=
  ⟨((clear_resolved_spec _).1 (by decide)).1,
   (clear_resolved_spec _).2 ⟨resolvedSample, by decide, rfl⟩⟩

lemma suggest_fix_electrical (d : Defect)
    (h : matchesKeywords (strToLower d.description) electricalWords = true) :
    suggest_fix d = electricalFix := by
  simp [suggest_fix, h]

lemma suggest_fix_cosmetic (d : Defect)
    (h1 : matchesKeywords (strToLower d.description) electricalWords = false)
    (h2 : matchesKeywords (strToLower d.description) cosmeticWords = true) :
    suggest_fix d = cosmeticFix := by
  simp [suggest_fix, h1, h2]

lemma suggest_fix_hardware (d : Defect)
    (h1 : matchesKeywords (strToLower d.description) electricalWords = false)
    (h2 : matchesKeywords (strToLower d.description) cosmeticWords = false)
    (h3 : matchesKeywords (strToLower d.description) hardwareWords = true) :
    suggest_fix d = hardwareFix := by
  simp [suggest_fix, h1, h2, h3]

lemma suggest_fix_software (d : Defect)
    (h1 : matchesKeywords (strToLower d.description) electricalWords = false)
    (h2 : matchesKeywords (strToLower d.description) cosmeticWords = false)
    (h3 : matchesKeywords (strToLower d.description) hardwareWords = false)
    (h4 : matchesKeywords (strToLower d.description) softwareWords = true) :
    suggest_fix d = softwareFix := by
  simp [suggest_fix, h1, h2, h3, h4]

lemma suggest_fix_fallback (d : Defect)
    (h1 : matchesKeywords (strToLower d.description) electricalWords = false)
    (h2 : matchesKeywords (strToLower d.description) cosmeticWords = false)
    (h3 : matchesKeywords (strToLower d.description) hardwareWords = false)
    (h4 : matchesKeywords (strToLower d.description) softwareWords = false) :
    suggest_fix d =
      match d.severity with
      | .critical => escalationFix
      | .minor => tier1Fix := by
  cases hsev : d.severity <;>
    simp [suggest_fix, h1, h2, h3, h4, Defect.get_impact_level, hsev]

example :
    suggest_fix (mkCriticalDefect "D-020" "t" "Exposed wire causing shock hazard" "u" "r" 0) = electricalFix := by
  decide

lemma suggest_fix_pure (d1 d2 : Defect) (hdesc : d1.description = d2.description)
    (hsev : d1.severity = d2.severity) : suggest_fix d1 = suggest_fix d2 := by
  simp only [suggest_fix, Defect.get_impact_level, hdesc, hsev]

/-- C5: `suggest_fix` is a pure function of description and severity; it
tests the four keyword sets on the lower-cased description in the fixed
order electrical, cosmetic, missing-hardware, software, returns the canned
text of the first matching set, and only with no match falls back to the
severity check; with the concrete outcomes of the spec's examples. -/
theorem suggest_fix_spec :
    (∀ d1 d2 : Defect, d1.description = d2.description →
       d1.severity = d2.severity → suggest_fix d1 = suggest_fix d2) ∧
    (∀ d : Defect,
       matchesKeywords (strToLower d.description) electricalWords = true →
       suggest_fix d = electricalFix) ∧
    (∀ d : Defect,
       matchesKeywords (strToLower d.description) electricalWords = false →
       matchesKeywords (strToLower d.description) cosmeticWords = true →
       suggest_fix d = cosmeticFix) ∧
    (∀ d : Defect,
       matchesKeywords (strToLower d.description) electricalWords = false →
       matchesKeywords (strToLower d.description) cosmeticWords = false →
       matchesKeywords (strToLower d.description) hardwareWords = true →
       suggest_fix d = hardwareFix) ∧
    (∀ d : Defect,
       matchesKeywords (strToLower d.description) electricalWords = false →
       matchesKeywords (strToLower d.description) cosmeticWords = false →
       matchesKeywords (strToLower d.description) hardwareWords = false →
       matchesKeywords (strToLower d.description) softwareWords = true →
       suggest_fix d = softwareFix) ∧
    (∀ d : Defect,
       matchesKeywords (strToLower d.description) electricalWords = false →
       matchesKeywords (strToLower d.description) cosmeticWords = false →
       matchesKeywords (strToLower d.description) hardwareWords = false →
       matchesKeywords (strToLower d.description) softwareWords = false →
       suggest_fix d =
         match d.severity with
         | .critical => escalationFix
         | .minor => tier1Fix) ∧
    suggest_fix (mkCriticalDefect "D-020" "t"
      "Exposed wire causing shock hazard" "u" "r" 0) = electricalFix ∧
    suggest_fix (mkMinorDefect "D-020" "t"
      "Exposed wire causing shock hazard" "u" "r" 0) = electricalFix ∧
    suggest_fix (mkMinorDefect "D-021" "t" "small paint scratch" "u" "r" 0) =
      cosmeticFix ∧
    suggest_fix (mkMinorDefect "D-022" "t" "unit randomly reboots" "u" "r" 0) =
      softwareFix ∧
    suggest_fix (mkCriticalDefect "D-023" "t" "assembly loose" "u" "r" 0) =
      escalationFix ∧
    suggest_fix (mkMinorDefect "D-023" "t" "assembly loose" "u" "r" 0) =
      tier1Fix :=
  ⟨suggest_fix_pure, suggest_fix_electrical, suggest_fix_cosmetic,
   suggest_fix_hardware, suggest_fix_software, suggest_fix_fallback,
   by decide, by decide, by decide, by decide, by decide, by decide⟩

/-- Witness for C5: the keyword clauses applied at the concrete example
defects, with every keyword-set hypothesis evaluated. -/
theorem suggest_fix_spec_witness :
    suggest_fix (mkMinorDefect "D-020" "t"
      "Exposed wire causing shock hazard" "u" "r" 0) = electricalFix ∧
    suggest_fix (mkCriticalDefect "D-023" "t" "assembly loose" "u" "r" 0) =
      (match (mkCriticalDefect "D-023" "t" "assembly loose" "u" "r"
          0).severity with
       | .critical => escalationFix
       | .minor => tier1Fix) ∧
    suggest_fix (mkMinorDefect "D-021" "t" "small paint scratch" "u" "r" 0) =
      cosmeticFix :=
  ⟨suggest_fix_spec.2.1 _ (by decide),
   suggest_fix_spec.2.2.2.2.2.1 _ (by decide) (by decide) (by decide)
     (by decide),
   suggest_fix_spec.2.2.1 _ (by decide) (by decide)⟩

lemma find_defect_congr (log : DefectLog) {id1 id2 : String}
    (h : strToLower id1 = strToLower id2) :
    log.find_defect id1 = log.find_defect id2 := by
  simp [DefectLog.find_defect, h]

lemma replaceFirstById_congr (l : List Defect) {id1 id2 : String} (r : Defect)
    (h : strToLower id1 = strToLower id2) :
    replaceFirstById l id1 r = replaceFirstById l id2 r := by
  induction l with
  | nil => rfl
  | cons d rest ih => simp [replaceFirstById, h, ih]

/-- C6: the controller resolution command looks the id up
case-insensitively (its outcome only depends on the lower-cased id), fails
with `NotFound` when no defect matches, propagates `AlreadyResolved`
unchanged without persisting when the found defect is already resolved,
and only on success replaces the found defect with its resolved version
and persists the new log. -/
theorem process_resolution_spec :
    (∀ (s : TrackerState) (id1 id2 m det : String) (now : Nat),
       strToLower id1 = strToLower id2 →
       process_resolution s id1 m det now =
         process_resolution s id2 m det now) ∧
    (∀ (s : TrackerState) (defect_id m det : String) (now : Nat),
       s.log_database.find_defect defect_id = none →
       process_resolution s defect_id m det now = .error .notFound) ∧
    (∀ (s : TrackerState) (defect_id m det : String) (now : Nat) (d : Defect),
       s.log_database.find_defect defect_id = some d → d.is_resolved = true →
       process_resolution s defect_id m det now = .error .alreadyResolved) ∧
    (∀ (s : TrackerState) (defect_id m det : String) (now : Nat) (d : Defect),
       s.log_database.find_defect defect_id = some d → d.is_resolved = false →
       ∃ s2, process_resolution s defect_id m det now = .ok s2 ∧
         s2.log_database.defects = replaceFirstById s.log_database.defects
           defect_id { d with is_resolved := true, resolved_by := m,
                              resolution_details := det,
                              resolved_at := some now } ∧
         s2.saved = s2.log_database) := by
  refine ⟨?_, ?_, ?_, ?_⟩
  · intro s id1 id2 m det now h
    unfold process_resolution
    rw [find_defect_congr s.log_database h]
    cases hf : s.log_database.find_defect id2 with
    | none => rfl
    | some d =>
      cases hr : d.resolve m det now with
      | error e => simp [hr]
      | ok resolved =>
        simp [hr, replaceFirstById_congr s.log_database.defects resolved h]
  · intro s defect_id m det now hfind
    simp [process_resolution, hfind]
  · intro s defect_id m det now d hfind hres
    simp [process_resolution, hfind, Defect.resolve, hres]
  · intro s defect_id m det now d hfind hres
    have key : process_resolution s defect_id m det now = .ok
        ⟨⟨replaceFirstById s.log_database.defects defect_id
            { d with is_resolved := true, resolved_by := m,
                     resolution_details := det, resolved_at := some now }⟩,
         ⟨replaceFirstById s.log_database.defects defect_id
            { d with is_resolved := true, resolved_by := m,
                     resolution_details := det, resolved_at := some now }⟩⟩ := by
      simp [process_resolution, hfind, Defect.resolve, hres]
    exact ⟨_, key, rfl, rfl⟩

/-- Witness for C6 at concrete logs: an unknown id fails with `NotFound`, a
lower-cased id still finds the upper-cased resolved defect and fails with
`AlreadyResolved`, and resolving the unresolved defect succeeds. -/
theorem process_resolution_spec_witness :
    process_resolution initialState "D-404" "m" "x" 5 = .error .notFound ∧
    process_resolution resolvedLogState "d-001" "m" "x" 5 =
      .error .alreadyResolved ∧
    (∃ s2, process_resolution minorLogState "d-001" "m" "x" 5 = .ok s2 ∧
      s2.log_database.defects = replaceFirstById [minorSample] "d-001"
        { minorSample with is_resolved := true, resolved_by := "m",
                           resolution_details := "x",
                           resolved_at := some 5 } ∧
      s2.saved = s2.log_database) :=
  ⟨process_resolution_spec.2.1 initialState "D-404" "m" "x" 5 rfl,
   process_resolution_spec.2.2.1 resolvedLogState "d-001" "m" "x" 5
     resolvedSample (by decide) rfl,
   process_resolution_spec.2.2.2 minorLogState "d-001" "m" "x" 5 minorSample
     (by decide) rfl⟩

lemma mem_replaceFirstById {l : List Defect} {defect_id : String}
    {r d : Defect} (h : d ∈ replaceFirstById l defect_id r) :
    d ∈ l ∨ d = r := by
  induction l with
  | nil => simp [replaceFirstById] at h
  | cons x rest ih =>
    simp only [replaceFirstById] at h
    by_cases hc : (strToLower x.id == strToLower defect_id) = true
    · rw [if_pos hc] at h
      rcases List.mem_cons.mp h with h | h
      · exact Or.inr h
      · exact Or.inl (List.mem_cons_of_mem _ h)
    · rw [if_neg hc] at h
      rcases List.mem_cons.mp h with h | h
      · exact Or.inl (by simp [h])
      · rcases ih h with h2 | h2
        · exact Or.inl (List.mem_cons_of_mem _ h2)
        · exact Or.inr h2

lemma create_defect_fresh (t i ta de u dl : String) (n : Nat) :
    (create_defect t i ta de u dl n).is_resolved = false ∧
    (create_defect t i ta de u dl n).resolved_at = none := by
  unfold create_defect
  split <;> exact ⟨rfl, rfl⟩

/-- C7: in every state reachable through construction, report, resolve and
clear, each defect has `resolved_at` set exactly when `is_resolved` holds;
and a defect whose `is_resolved` is already true rejects re-resolution
(the transition happens at most once from false to true). -/
theorem defect_lifecycle_invariant :
    (∀ s, Reachable s → ∀ d ∈ s.log_database.defects,
       d.resolved_at.isSome = d.is_resolved) ∧
    (∀ (d : Defect) (r det : String) (now : Nat), d.is_resolved = true →
       d.resolve r det now = .error .alreadyResolved) := by
  constructor
  · intro s hs
    induction hs with
    | init => intro d hd; simp at hd
    | report s1 t i ta de u dl n hs ih =>
      intro d hd
      rw [report_defect_fst] at hd
      simp only [DefectLog.add_defect] at hd
      rcases List.mem_append.mp hd with h | h
      · exact ih d h
      · have h1 := List.mem_singleton.mp h
        subst h1
        have h2 := create_defect_fresh t i ta de u dl n
        rw [h2.1, h2.2]
        rfl
    | resolve s1 s2 defect_id m det n hs hok ih =>
      intro d hd
      unfold process_resolution at hok
      cases hf : s1.log_database.find_defect defect_id <;> rw [hf] at hok
      · simp at hok
      · rename_i found
        cases hres : found.is_resolved
        · simp only [Defect.resolve, hres, Bool.false_eq_true, if_false,
            Except.ok.injEq] at hok
          subst hok
          rcases mem_replaceFirstById hd with h | h
          · exact ih d h
          · subst h
            rfl
        · simp [Defect.resolve, hres] at hok
    | clear s1 s2 hs hok ih =>
      intro d hd
      simp only [clear_resolved_defects] at hok
      split at hok
      · simp only [Except.ok.injEq] at hok
        subst hok
        simp only [DefectLog.remove_resolved_defects] at hd
        exact ih d (List.mem_filter.mp hd).1
      · exact Except.noConfusion hok
  · intro d r det now h
    simp [Defect.resolve, h]

/-- Witness for C7: the invariant at the concrete reachable one-report
state and the rejection of re-resolving the concrete resolved defect. -/
theorem defect_lifecycle_invariant_witness :
    ((create_defect "Minor" "D-010" "task" "desc" "u" "area" 3).resolved_at.isSome
       = (create_defect "Minor" "D-010" "task" "desc" "u" "area" 3).is_resolved) ∧
    resolvedSample.resolve "x" "y" 99 = .error .alreadyResolved :=
  ⟨defect_lifecycle_invariant.1 reportedState
     (Reachable.report initialState "Minor" "D-010" "task" "desc" "u" "area" 3
       Reachable.init)
     (create_defect "Minor" "D-010" "task" "desc" "u" "area" 3) (by decide),
   defect_lifecycle_invariant.2 resolvedSample "x" "y" 99 rfl⟩

/-- C8: the aging of a resolved defect is a pure function of
`resolved_at - logged_at` (hours and minutes formatted from that duration)
and does not change as the current time advances, while the aging of an
unresolved defect is `now - logged_at` and strictly increases as the
current time advances. -/
theorem get_aging_spec :
    (∀ (d : Defect) (n1 n2 : Nat), d.is_resolved = true →
       d.get_aging n1 = d.get_aging n2) ∧
    (∀ (d : Defect) (t now : Nat), d.is_resolved = true →
       d.resolved_at = some t →
       agingSeconds d now = some ((t : Int) - (d.logged_at : Int))) ∧
    (∀ (d : Defect) (now : Nat), d.is_resolved = false →
       agingSeconds d now = some ((now : Int) - (d.logged_at : Int))) ∧
    (∀ (d : Defect) (n1 n2 : Nat) (a1 a2 : Int), d.is_resolved = false →
       n1 < n2 → agingSeconds d n1 = some a1 → agingSeconds d n2 = some a2 →
       a1 < a2) ∧
    (∀ (d : Defect) (now : Nat),
       d.get_aging now = (agingSeconds d now).map formatAging) := by
  refine ⟨?_, ?_, ?_, ?_, fun d now => rfl⟩
  · intro d n1 n2 h
    simp [Defect.get_aging, agingSeconds, h]
  · intro d t now h ht
    simp [agingSeconds, h, ht]
  · intro d now h
    simp [agingSeconds, h]
  · intro d n1 n2 a1 a2 h hlt h1 h2
    simp [agingSeconds, h] at h1 h2
    omega

/-- Witness for C8: the concrete resolved defect ages identically at two
different current times, and the concrete unresolved defect ages strictly
more at time 30 than at time 20. -/
theorem get_aging_spec_witness :
    resolvedSample.get_aging 100 = resolvedSample.get_aging 200 ∧
    (((20 : Nat) : Int) - (minorSample.logged_at : Int)) <
      (((30 : Nat) : Int) - (minorSample.logged_at : Int)) :=
  ⟨get_aging_spec.1 resolvedSample 100 200 rfl,
   get_aging_spec.2.2.2.1 minorSample 20 30 _ _ rfl (by decide)
     (by decide) (by decide)⟩

/-- C9: the factory compares the tag case-insensitively, producing a
critical defect exactly when the lower-cased tag is `"critical"` and a
minor one otherwise, storing `detail` as the variant-specific attribute;
impact level and priority weight are pure functions of the variant
(`"CRITICAL"`/10 for critical, `"Minor"`/1 for minor). -/
theorem create_defect_spec :
    (∀ (tag defect_id task desc user detail : String) (now : Nat),
       (create_defect tag defect_id task desc user detail now).severity =
         (if strToLower tag == "critical" then .critical else .minor) ∧
       (create_defect tag defect_id task desc user detail now).detail =
         detail) ∧
    (∀ d : Defect, d.severity = .critical →
       d.get_impact_level = "CRITICAL" ∧ d.get_priority_weight = 10) ∧
    (∀ d : Defect, d.severity = .minor →
       d.get_impact_level = "Minor" ∧ d.get_priority_weight = 1) ∧
    (∀ d1 d2 : Defect, d1.severity = d2.severity →
       d1.get_priority_weight = d2.get_priority_weight) := by
  refine ⟨?_, ?_, ?_, ?_⟩
  · intro tag defect_id task desc user detail now
    by_cases h : (strToLower tag == "critical") = true <;>
      simp [create_defect, h, mkCriticalDefect, mkMinorDefect]
  · intro d h
    simp [Defect.get_impact_level, Defect.get_priority_weight, h]
  · intro d h
    simp [Defect.get_impact_level, Defect.get_priority_weight, h]
  · intro d1 d2 h
    simp [Defect.get_priority_weight, h]

/-- Witness for C9: a mixed-case tag yields the critical variant with
weight 10 and impact `"CRITICAL"`, and the tag `"Minor"` yields the minor
variant with weight 1. -/
theorem create_defect_spec_witness :
    ((create_defect "CrItIcAl" "D-100" "t" "d" "u" "risk" 7).severity =
       (if strToLower "CrItIcAl" == "critical" then Severity.critical
        else Severity.minor) ∧
     (create_defect "CrItIcAl" "D-100" "t" "d" "u" "risk" 7).detail =
       "risk") ∧
    ((create_defect "CrItIcAl" "D-100" "t" "d" "u" "risk" 7).get_impact_level
       = "CRITICAL" ∧
     (create_defect "CrItIcAl" "D-100" "t" "d" "u" "risk"
       7).get_priority_weight = 10) ∧
    ((create_defect "Minor" "D-101" "t" "d" "u" "area" 7).get_impact_level =
       "Minor" ∧
     (create_defect "Minor" "D-101" "t" "d" "u" "area"
       7).get_priority_weight = 1) :=
  ⟨create_defect_spec.1 "CrItIcAl" "D-100" "t" "d" "u" "risk" 7,
   create_defect_spec.2.1 (create_defect "CrItIcAl" "D-100" "t" "d" "u"
     "risk" 7) (by decide),
   create_defect_spec.2.2.1 (create_defect "Minor" "D-101" "t" "d" "u"
     "area" 7) (by decide)⟩

lemma charsStartWith_iff (pat l : List Char) :
    charsStartWith pat l = true ↔ ∃ suf, l = pat ++ suf := by
  induction pat generalizing l with
  | nil => simp [charsStartWith]
  | cons p ps ih =>
    cases l with
    | nil => simp [charsStartWith]
    | cons c cs =>
      simp only [charsStartWith, Bool.and_eq_true, beq_iff_eq, ih,
        List.cons_append, List.cons.injEq]
      constructor
      · rintro ⟨hpc, suf, hs⟩
        exact ⟨suf, hpc.symm, hs⟩
      · rintro ⟨suf, hpc, hs⟩
        exact ⟨hpc.symm, suf, hs⟩

lemma charsContain_iff (pat l : List Char) :
    charsContain pat l = true ↔ ∃ pre suf, l = pre ++ pat ++ suf := by
  induction l with
  | nil =>
    simp only [charsContain, charsStartWith_iff]
    constructor
    · rintro ⟨suf, hs⟩
      exact ⟨[], suf, by simpa using hs⟩
    · rintro ⟨pre, suf, hs⟩
      refine ⟨suf, ?_⟩
      rcases List.append_eq_nil.mp (List.append_eq_nil.mp hs.symm).1 with
        ⟨h1, h2⟩
      simp [h2, (List.append_eq_nil.mp hs.symm).2.symm]
  | cons c cs ih =>
    simp only [charsContain, Bool.or_eq_true, charsStartWith_iff, ih]
    constructor
    · rintro (⟨suf, hs⟩ | ⟨pre, suf, hs⟩)
      · exact ⟨[], suf, by simpa using hs⟩
      · exact ⟨c :: pre, suf, by simp [hs]⟩
    · rintro ⟨pre, suf, hs⟩
      cases pre with
      | nil =>
        exact Or.inl ⟨suf, by simpa using hs⟩
      | cons p ps =>
        rcases List.cons_eq_cons.mp (by simpa using hs) with ⟨hcp, hrest⟩
        exact Or.inr ⟨ps, suf, by simp [hrest]⟩

lemma strContains_iff (s w : String) :
    strContains s w = true ↔
      ∃ pre suf, s.toList = pre ++ w.toList ++ suf :=
  charsContain_iff w.toList s.toList

/-- C10: keyword matching is substring containment in the lower-cased
description, not whole-word matching: containment holds exactly when the
keyword occurs anywhere inside the text, any description containing
`"wire"` (in particular inside another word) takes the electrical text,
and `"unit randomly reboots"` takes the software text through the keyword
`"boot"` inside `"reboots"`. -/
theorem substring_keyword_match :
    (∀ (s w : String), strContains s w = true ↔
       ∃ pre suf, s.toList = pre ++ w.toList ++ suf) ∧
    (∀ d : Defect, strContains (strToLower d.description) "wire" = true →
       suggest_fix d = electricalFix) ∧
    suggest_fix (mkMinorDefect "D-030" "t" "machine was rewired" "u" "a" 0) =
      electricalFix ∧
    suggest_fix (mkMinorDefect "D-031" "t" "unit randomly reboots" "u" "a" 0)
      = softwareFix ∧
    strContains (strToLower "unit randomly reboots") "boot" = true :=
  ⟨strContains_iff,
   fun d h => suggest_fix_electrical d
     (by simp [matchesKeywords, electricalWords, h]),
   by decide, by decide, by decide⟩

/-- Witness for C10: the electrical clause applied to the concrete
description whose only occurrence of `"wire"` is inside `"rewired"`. -/
theorem substring_keyword_match_witness :
    suggest_fix (mkMinorDefect "D-032" "t" "panel rewired badly" "u" "a" 0) =
      electricalFix ∧
    (strContains "panel rewired badly" "wire" = true ↔
      ∃ pre suf, ("panel rewired badly").toList =
        pre ++ ("wire").toList ++ suf) :=
  ⟨substring_keyword_match.2.1
     (mkMinorDefect "D-032" "t" "panel rewired badly" "u" "a" 0) (by decide),
   substring_keyword_match.1 "panel rewired badly" "wire"⟩
